import Mathlib

/-!
# Verification of the sportsbook settlement core

Shallow embedding of the two instruction handlers of the sportsbook program
(`claim_winnings.rs` and `finalize_revenue.rs`) and proofs about them.

Machine integers are modelled as `Nat` with explicit wrapping: the `as u64`
narrowing cast is `% 2 ^ 64`, `u128::checked_mul` / `checked_div` are `Option`
valued, and an unchecked `u64` addition that overflows aborts the program
(the workspace builds with `overflow-checks = true`, the standard Anchor
profile), modelled by the `Res.trap` outcome.  Timestamps (`i64`) are
modelled as `Int`; the `i64` range itself is not modelled, which is faithful
on every input whose times are far from `±2^63`.
-/

/-- Wrap-around modulus of a `u64` value. -/
def U64_MOD : Nat := 2 ^ 64

/-- Wrap-around modulus of a `u128` value. -/
def U128_MOD : Nat := 2 ^ 128

/-- Modelled from the spec: `constants.rs` is not under `src/`; §8 of the spec
fixes `ODDS_SCALE = 10000` (fixed-point scale of odds and multipliers). -/
def ODDS_SCALE : Nat := 10000

/-- Modelled from the spec: `constants.rs` is not under `src/`; §8 fixes
`BPS_DENOMINATOR = 10000`. -/
def BPS_DENOMINATOR : Nat := 10000

/-- Modelled from the spec: `constants.rs` is not under `src/`; §8 fixes
`MAX_PAYOUT_PER_BET = 100000`. -/
def MAX_PAYOUT_PER_BET : Nat := 100000

/-- Modelled from the spec: `constants.rs` is not under `src/`; §8 fixes
`MAX_ROUND_PAYOUTS = 1000000`. -/
def MAX_ROUND_PAYOUTS : Nat := 1000000

/-- Unchecked `u64` addition under `overflow-checks = true`: the sum when it
fits in a `u64`, `none` (a program abort) when it overflows. -/
def u64add (a b : Nat) : Option Nat :=
  if a + b < U64_MOD then some (a + b) else none

/-- Model of `u128::checked_mul` on operands already reduced to `Nat`. -/
def checked_mul_u128 (a b : Nat) : Option Nat :=
  if a * b < U128_MOD then some (a * b) else none

/-- Model of `u128::checked_div`: `None` exactly on division by zero. -/
def checked_div_u128 (a b : Nat) : Option Nat :=
  if b = 0 then none else some (a / b)

/-- Model of the narrowing cast `as u64`: truncation mod `2 ^ 64`. -/
def cast_u64 (a : Nat) : Nat := a % U64_MOD

/-- Model of `u64::saturating_add`. -/
def saturating_add_u64 (a b : Nat) : Nat :=
  min (a + b) (U64_MOD - 1)

/-- Modelled from the spec: `errors.rs` is not under `src/`; §7 of the spec
gives the error taxonomy.  `AuthorityMismatch` stands for the Anchor
constraint failure on `finalize`'s authority check (spec §6 AuthorityCheck),
and `InsufficientFunds` for a failing token transfer (spec §6). -/
inductive SportsbookError where
  | RoundNotSettled
  | BetAlreadyClaimed
  | NotBettor
  | PayoutBelowMinimum
  | OddsNotLocked
  | CalculationOverflow
  | RoundPayoutLimitReached
  | InsufficientProtocolLiquidity
  | RevenueAlreadyDistributed
  | RevenueDistributedBeforeClaims
  | AuthorityMismatch
  | InsufficientFunds
deriving DecidableEq

/-- Outcome of a fallible instruction step: a value, a program error
(`SportsbookError`), or an abort (`trap`: an out-of-bounds index or a checked
`u64` overflow, which panic the program). -/
inductive Res (α : Type) where
  | ok : α → Res α
  | err : SportsbookError → Res α
  | trap : Res α
deriving DecidableEq

/-- Modelled from the spec: `state.rs` is not under `src/`; §3 gives
`MatchOutcome` as `enum{HomeWin, AwayWin, Draw, Pending}`. -/
inductive MatchOutcome where
  | HomeWin
  | AwayWin
  | Draw
  | Pending
deriving DecidableEq

/-- Modelled from the spec: `state.rs` is not under `src/`; §3 gives
`Prediction = {match_index, predicted_outcome, amount_in_pool}` with the
outcome stored as the raw integer tag decoded in `calculate_bet_payout`. -/
structure Prediction where
  match_index : Nat
  predicted_outcome : Nat
  amount_in_pool : Nat
deriving DecidableEq

/-- Modelled from the spec: `state.rs` is not under `src/`; §3 gives
`LockedOdds = {locked : bool, odds_by_outcome : mapping outcome → rate}`. -/
structure LockedOdds where
  locked : Bool
  home_odds : Nat
  away_odds : Nat
  draw_odds : Nat
deriving DecidableEq

/-- Modelled from the spec: `LockedOdds.get_odds` is not under `src/`; it
reads the `odds_by_outcome` mapping at the raw outcome tag used by
`calculate_bet_payout` (1 = HomeWin, 2 = AwayWin, 3 = Draw). -/
def LockedOdds.get_odds (lo : LockedOdds) (outcome : Nat) : Nat :=
  if outcome = 1 then lo.home_odds
  else if outcome = 2 then lo.away_odds
  else if outcome = 3 then lo.draw_odds
  else 0

/-- Modelled from the spec: `state.rs` is not under `src/`; §3 gives the
`Bet` record. -/
structure Bet where
  bettor : Nat
  round_id : Nat
  predictions : List Prediction
  locked_multiplier : Nat
  claimed : Bool
  settled : Bool
  claim_deadline : Int
  bounty_claimer : Option Nat
deriving DecidableEq

/-- Modelled from the spec: `Bet.get_predictions` is not under `src/`; §3
gives the bet's ordered sequence of predictions. -/
def Bet.get_predictions (b : Bet) : List Prediction := b.predictions

/-- Modelled from the spec: `state.rs` is not under `src/`; §3 gives the
`RoundAccounting` record. -/
structure RoundAccounting where
  round_id : Nat
  match_results : List MatchOutcome
  locked_odds : List LockedOdds
  settled : Bool
  round_end_time : Int
  total_user_deposits : Nat
  protocol_fee_collected : Nat
  total_bet_volume : Nat
  protocol_seed_amount : Nat
  total_reserved_for_winners : Nat
  total_claimed : Nat
  total_paid_out : Nat
  revenue_distributed : Bool
  protocol_revenue_share : Nat
  season_revenue_share : Nat
deriving DecidableEq

/-- Modelled from the spec: `state.rs` is not under `src/`; §3 gives the
`BettingPool` record. -/
structure BettingPool where
  authority : Nat
  season_pool_share_bps : Nat
  season_reward_pool : Nat
deriving DecidableEq

/-- Decoding of the raw predicted-outcome tag, from `calculate_bet_payout`
(claim_winnings.rs lines 185-190). -/
def decodeOutcome (n : Nat) : MatchOutcome :=
  if n = 1 then .HomeWin
  else if n = 2 then .AwayWin
  else if n = 3 then .Draw
  else .Pending

/-- The prediction loop of `calculate_bet_payout` (claim_winnings.rs lines
180-210).  `acc` is `total_base_payout`.  Both index expressions of lines
181-182 panic on an out-of-bounds `match_index` (`trap`); a wrong leg breaks
out of the loop carrying `all_correct = false`. -/
def calcLoop (results : List MatchOutcome) (odds : List LockedOdds) :
    List Prediction → Nat → Res (Bool × Nat)
  | [], acc => .ok (true, acc)
  | p :: rest, acc =>
    match results[p.match_index]?, odds[p.match_index]? with
    | some mr, some lo =>
      if mr ≠ decodeOutcome p.predicted_outcome then .ok (false, acc)
      else if lo.locked = false then .err .OddsNotLocked
      else
        match checked_mul_u128 p.amount_in_pool (lo.get_odds p.predicted_outcome) with
        | none => .err .CalculationOverflow
        | some prod =>
          match checked_div_u128 prod ODDS_SCALE with
          | none => .err .CalculationOverflow
          | some q =>
            match u64add acc (cast_u64 q) with
            | none => .trap
            | some acc2 => calcLoop results odds rest acc2
    | _, _ => .trap

/-- Embedding of `calculate_bet_payout` (claim_winnings.rs lines 171-231):
runs the prediction loop, returns `(false, 0, 0)` when a leg was wrong,
otherwise applies the locked parlay multiplier and caps the result at
`MAX_PAYOUT_PER_BET`. -/
def calculate_bet_payout (bet : Bet) (round : RoundAccounting) :
    Res (Bool × Nat × Nat) :=
  match calcLoop round.match_results round.locked_odds bet.get_predictions 0 with
  | .trap => .trap
  | .err e => .err e
  | .ok (false, _) => .ok (false, 0, 0)
  | .ok (true, base) =>
    match checked_mul_u128 base bet.locked_multiplier with
    | none => .err .CalculationOverflow
    | some prod =>
      match checked_div_u128 prod ODDS_SCALE with
      | none => .err .CalculationOverflow
      | some q =>
        let tf := cast_u64 q
        .ok (true, base, if tf > MAX_PAYOUT_PER_BET then MAX_PAYOUT_PER_BET else tf)

/-- State touched by a `claim_winnings` invocation: the bet, its round, and
the three token-account balances (pool, bettor, claimer). -/
structure ClaimState where
  bet : Bet
  round : RoundAccounting
  pool_balance : Nat
  bettor_balance : Nat
  claimer_balance : Nat
deriving DecidableEq

/-- Arguments of a `claim_winnings` invocation: the signing claimer, the
clock reading, and the slippage floor. -/
structure ClaimArgs where
  claimer : Nat
  current_time : Int
  min_payout : Nat
deriving DecidableEq

/-- Model of the SPL token transfer (spec §6): moves `amt` between two
balances, failing when the source is short or the destination would
overflow a `u64`. -/
def transfer (from_bal to_bal amt : Nat) : Option (Nat × Nat) :=
  if from_bal < amt then none
  else
    match u64add to_bal amt with
    | none => none
    | some t2 => some (from_bal - amt, t2)

/-- The transfer tail of the claim handler (claim_winnings.rs lines
127-158): liquidity check, payment of the bettor's share, then of the
bounty when positive. -/
def payout_transfers (s : ClaimState) (bet3 : Bet) (round2 : RoundAccounting)
    (final_payout bettor_amount bounty_amount : Nat) : Res ClaimState :=
  if s.pool_balance < final_payout then .err .InsufficientProtocolLiquidity
  else
    match transfer s.pool_balance s.bettor_balance bettor_amount with
    | none => .err .InsufficientFunds
    | some (pb1, bb1) =>
      if 0 < bounty_amount then
        match transfer pb1 s.claimer_balance bounty_amount with
        | none => .err .InsufficientFunds
        | some (pb2, cb1) =>
          .ok { bet := bet3, round := round2, pool_balance := pb2,
                bettor_balance := bb1, claimer_balance := cb1 }
      else
        .ok { bet := bet3, round := round2, pool_balance := pb1,
              bettor_balance := bb1, claimer_balance := s.claimer_balance }

/-- Body of the `claim_winnings` handler after the claim-deadline cache
write (claim_winnings.rs lines 74-167): `bet1` is the bet with its
`claim_deadline` cache already updated.  The bounty bet of line 118 sets
`bounty_claimer` on the claimed bet, and `bettor_share` is the saturating
difference of line 115 (`Nat` subtraction saturates). -/
def claim_winnings_core (s : ClaimState) (a : ClaimArgs) (bet1 : Bet) : Res ClaimState :=
  if a.current_time ≤ s.round.round_end_time + 86400 ∧ a.claimer ≠ s.bet.bettor then
    .err .NotBettor
  else
    match calculate_bet_payout bet1 s.round with
    | .trap => .trap
    | .err e => .err e
    | .ok (won, _base, final_payout) =>
      if final_payout < a.min_payout then .err .PayoutBelowMinimum
      else if won = true ∧ 0 < final_payout then
        match u64add s.round.total_paid_out final_payout with
        | none => .trap
        | some pf =>
          if MAX_ROUND_PAYOUTS < pf then .err .RoundPayoutLimitReached
          else
            match u64add s.round.total_claimed final_payout with
            | none => .trap
            | some tc =>
              if s.round.round_end_time + 86400 < a.current_time ∧ a.claimer ≠ s.bet.bettor then
                match checked_mul_u128 final_payout 1000 with
                | none => .err .CalculationOverflow
                | some m =>
                  match checked_div_u128 m 10000 with
                  | none => .err .CalculationOverflow
                  | some b0 =>
                    payout_transfers s
                      { bet1 with
                        claimed := true, settled := true, bounty_claimer := some a.claimer }
                      { s.round with
                        total_claimed := tc, total_paid_out := pf }
                      final_payout (final_payout - cast_u64 b0) (cast_u64 b0)
              else
                payout_transfers s
                  { bet1 with
                    claimed := true, settled := true }
                  { s.round with
                    total_claimed := tc, total_paid_out := pf }
                  final_payout final_payout 0
      else
        .ok { s with bet := { bet1 with claimed := true, settled := true } }

/-- Embedding of the `claim_winnings` handler (claim_winnings.rs lines
53-168) together with its two Anchor account constraints (lines 17 and 25,
checked in account order before the handler body runs).  The lazy
`claim_deadline` cache write of lines 70-72 happens before the window
check, so the body runs on the updated bet. -/
def claim_winnings (s : ClaimState) (a : ClaimArgs) : Res ClaimState :=
  if s.round.settled = false then .err .RoundNotSettled
  else if s.bet.claimed = true then .err .BetAlreadyClaimed
  else if s.bet.claim_deadline = 0 then
    claim_winnings_core s a { s.bet with claim_deadline := s.round.round_end_time + 86400 }
  else
    claim_winnings_core s a s.bet

/-- Kind of failure of a whole instruction: a surfaced program error or an
abort (panic). -/
inductive OpFailure where
  | failed : SportsbookError → OpFailure
  | trapped : OpFailure
deriving DecidableEq

/-- Modelled from the spec: the surrounding ledger/transaction system (§5)
makes every instruction all-or-nothing — a failing instruction commits no
account mutation.  `claim_winnings_tx` is the observable effect of one claim
attempt: the committed state plus the failure kind, if any. -/
def claim_winnings_tx (s : ClaimState) (a : ClaimArgs) : ClaimState × Option OpFailure :=
  match claim_winnings s a with
  | .ok s2 => (s2, none)
  | .err e => (s, some (.failed e))
  | .trap => (s, some .trapped)

/-- Sequential application of a list of claim attempts under the
transactional semantics: failed attempts leave the state unchanged. -/
def applyClaims (s : ClaimState) : List ClaimArgs → ClaimState
  | [] => s
  | a :: rest => applyClaims (claim_winnings_tx s a).1 rest

/-- State touched by a `finalize_round_revenue` invocation. -/
structure FinalizeState where
  pool : BettingPool
  round : RoundAccounting
  pool_balance : Nat
deriving DecidableEq

/-- Arguments of a `finalize_round_revenue` invocation. -/
structure FinalizeArgs where
  authority : Nat
deriving DecidableEq

/-- Embedding of the `finalize_round_revenue` handler (finalize_revenue.rs
lines 32-92) together with its Anchor account constraints (lines 17-18:
round settled and revenue not yet distributed, then line 26: the signer is
the pool authority, checked in account order). -/
def finalize_round_revenue (s : FinalizeState) (a : FinalizeArgs) : Res FinalizeState :=
  if s.round.settled = false then .err .RoundNotSettled
  else if s.round.revenue_distributed = true then .err .RevenueAlreadyDistributed
  else if a.authority ≠ s.pool.authority then .err .AuthorityMismatch
  else if s.round.total_claimed < s.round.total_reserved_for_winners then
    .err .RevenueDistributedBeforeClaims
  else
    let remaining := s.pool_balance
    if 0 < remaining then
      let d := saturating_add_u64 s.round.total_user_deposits s.round.protocol_fee_collected
      match checked_mul_u128 d s.pool.season_pool_share_bps with
      | none => .err .CalculationOverflow
      | some m =>
        match checked_div_u128 m BPS_DENOMINATOR with
        | none => .err .CalculationOverflow
        | some q =>
          let share0 := cast_u64 q
          let season_share := if remaining < share0 then remaining else share0
          let protocol_profit := remaining - season_share
          match (if 0 < season_share then u64add s.pool.season_reward_pool season_share
                 else some s.pool.season_reward_pool) with
          | none => .trap
          | some srp =>
            .ok { pool := { s.pool with season_reward_pool := srp },
                  round := { s.round with
                             protocol_revenue_share := protocol_profit,
                             season_revenue_share := season_share,
                             revenue_distributed := true },
                  pool_balance := s.pool_balance }
    else
      .ok { pool := s.pool,
            round := { s.round with
                       protocol_revenue_share := 0,
                       season_revenue_share := 0,
                       revenue_distributed := true },
            pool_balance := s.pool_balance }

/-- Modelled from the spec: transactional all-or-nothing semantics (§5) of a
`finalize_round_revenue` invocation, as for `claim_winnings_tx`. -/
def finalize_round_revenue_tx (s : FinalizeState) (a : FinalizeArgs) :
    FinalizeState × Option OpFailure :=
  match finalize_round_revenue s a with
  | .ok s2 => (s2, none)
  | .err e => (s, some (.failed e))
  | .trap => (s, some .trapped)

/-- The all-zero, unlocked odds record, used as the `getD` default in
statements about a prediction's odds entry. -/
def noOdds : LockedOdds := { locked := false, home_odds := 0, away_odds := 0, draw_odds := 0 }

/-- Odds rate a prediction is paid at: the round's locked-odds entry of the
prediction's match, read at the predicted outcome. -/
def predOdds (odds : List LockedOdds) (p : Prediction) : Nat :=
  (odds.getD p.match_index noOdds).get_odds p.predicted_outcome

/-- Mathematical per-leg payout of the spec (§4.1): truncating fixed-point
product of stake and odds. -/
def legPayout (odds : List LockedOdds) (p : Prediction) : Nat :=
  p.amount_in_pool * predOdds odds p / ODDS_SCALE

/-- Mathematical base payout of the spec (§4.1): sum of the leg payouts. -/
def basePayout (odds : List LockedOdds) (preds : List Prediction) : Nat :=
  (preds.map (legPayout odds)).sum

/-- Well-formedness of one leg for payout purposes: in-range match index,
locked odds, and stake and rate in `u64` range. -/
def LegReady (results : List MatchOutcome) (odds : List LockedOdds) (p : Prediction) : Prop :=
  p.match_index < results.length ∧ p.match_index < odds.length ∧
  (odds.getD p.match_index noOdds).locked = true ∧
  p.amount_in_pool < U64_MOD ∧ predOdds odds p < U64_MOD

instance (results : List MatchOutcome) (odds : List LockedOdds) (p : Prediction) :
    Decidable (LegReady results odds p) := by
  unfold LegReady; infer_instance

/-- Correctness of one leg: the recorded match result equals the decoded
predicted outcome. -/
def LegCorrect (results : List MatchOutcome) (p : Prediction) : Prop :=
  results.getD p.match_index .Pending = decodeOutcome p.predicted_outcome

instance (results : List MatchOutcome) (p : Prediction) :
    Decidable (LegCorrect results p) := by
  unfold LegCorrect; infer_instance

/-!
## Concrete instances

The concrete round, bets and states below instantiate the theorems.  The
two-leg bet is the worked example of spec §8: stakes 100 at odds 2.0 and
1.5, parlay multiplier 1.2.
-/

/-- Locked odds of 2.0 on a home win. -/
def specLO1 : LockedOdds := { locked := true, home_odds := 20000, away_odds := 0, draw_odds := 0 }

/-- Locked odds of 1.5 on a home win. -/
def specLO2 : LockedOdds := { locked := true, home_odds := 15000, away_odds := 0, draw_odds := 0 }

/-- The spec's worked two-leg parlay bet. -/
def specBet : Bet :=
  { bettor := 7, round_id := 1,
    predictions := [ { match_index := 0, predicted_outcome := 1, amount_in_pool := 100 },
                     { match_index := 1, predicted_outcome := 1, amount_in_pool := 100 } ],
    locked_multiplier := 12000, claimed := false, settled := false,
    claim_deadline := 0, bounty_claimer := none }

/-- A settled round where both matches ended in home wins. -/
def specRound : RoundAccounting :=
  { round_id := 1, match_results := [.HomeWin, .HomeWin], locked_odds := [specLO1, specLO2],
    settled := true, round_end_time := 1000,
    total_user_deposits := 0, protocol_fee_collected := 0, total_bet_volume := 0,
    protocol_seed_amount := 0, total_reserved_for_winners := 0, total_claimed := 0,
    total_paid_out := 0, revenue_distributed := false,
    protocol_revenue_share := 0, season_revenue_share := 0 }

/-- Claim state holding the spec bet against the settled round. -/
def specState : ClaimState :=
  { bet := specBet, round := specRound, pool_balance := 100000,
    bettor_balance := 0, claimer_balance := 0 }

/-- The bettor claims inside the window with no slippage floor. -/
def specArgsBettor : ClaimArgs := { claimer := 7, current_time := 5000, min_payout := 0 }

/-- A third party claims after the 24-hour deadline. -/
def specArgsHunter : ClaimArgs := { claimer := 9, current_time := 90000, min_payout := 0 }

/-- Result of the bettor's in-window claim on `specState`. -/
def specResultBettor : ClaimState :=
  { bet := { specBet with
             claim_deadline := 87400, claimed := true, settled := true },
    round := { specRound with
               total_claimed := 420, total_paid_out := 420 },
    pool_balance := 99580, bettor_balance := 420, claimer_balance := 0 }

/-- A one-leg bet with an extreme stake at extreme odds: the true quotient
exceeds the `u64` range. -/
def hugeBet : Bet :=
  { bettor := 7, round_id := 1,
    predictions := [ { match_index := 0, predicted_outcome := 1, amount_in_pool := 2 ^ 64 - 1 } ],
    locked_multiplier := 10000, claimed := false, settled := false,
    claim_deadline := 0, bounty_claimer := none }

/-- A settled one-match round with extreme locked odds. -/
def hugeRound : RoundAccounting :=
  { specRound with
    match_results := [.HomeWin],
    locked_odds := [ { locked := true, home_odds := 2 ^ 64 - 1, away_odds := 0, draw_odds := 0 } ] }

/-- A one-leg bet predicting an away win (which will be wrong). -/
def wrongLegBet : Bet :=
  { specBet with
    predictions := [ { match_index := 0, predicted_outcome := 2, amount_in_pool := 100 } ] }

/-- The spec round with the first match's odds left unlocked. -/
def unlockedRound : RoundAccounting :=
  { specRound with
    locked_odds := [ { specLO1 with locked := false }, specLO2 ] }

/-- A two-leg bet whose second (correct) leg has unlocked odds. -/
def reachedUnlockedBet : Bet := specBet

/-- The spec round with the second match's odds left unlocked. -/
def secondUnlockedRound : RoundAccounting :=
  { specRound with
    locked_odds := [ specLO1, { specLO2 with locked := false } ] }

/-- A bet whose first leg is wrong and whose second leg has an out-of-range
match index. -/
def maskedOobBet : Bet :=
  { specBet with
    predictions := [ { match_index := 0, predicted_outcome := 2, amount_in_pool := 100 },
                     { match_index := 5, predicted_outcome := 1, amount_in_pool := 100 } ] }

/-- A one-leg bet whose match index is out of range of the spec round. -/
def oobBet : Bet :=
  { specBet with
    predictions := [ { match_index := 5, predicted_outcome := 1, amount_in_pool := 100 } ] }

/-- Claim state holding the out-of-range bet. -/
def oobState : ClaimState :=
  { specState with
    bet := oobBet }

/-- Claim state whose bet is already claimed. -/
def claimedState : ClaimState :=
  { specState with
    bet := { specBet with
             claimed := true } }

/-- Claim state whose round has almost exhausted the per-round payout cap. -/
def nearCapState : ClaimState :=
  { specState with
    round := { specRound with
               total_paid_out := 999700 } }

/-- A pool configured with a 2% season share and some accumulated season
rewards. -/
def finPool : BettingPool :=
  { authority := 3, season_pool_share_bps := 200, season_reward_pool := 50 }

/-- A settled, fully claimed round with 1000 of user deposits and 100 of
collected fees. -/
def finRound : RoundAccounting :=
  { specRound with
    total_user_deposits := 1000, protocol_fee_collected := 100,
    total_claimed := 5, total_reserved_for_winners := 5 }

/-- Finalize state with 700 of residual liquidity. -/
def finState : FinalizeState :=
  { pool := finPool, round := finRound, pool_balance := 700 }

/-- Season share recorded by a successful finalize with positive residual
liquidity, as the code computes it: deposits-plus-fees (saturating) times
the share bps, scaled down, narrowed to `u64`, capped at the residual. -/
def seasonShare (s : FinalizeState) : Nat :=
  min (cast_u64 (saturating_add_u64 s.round.total_user_deposits
        s.round.protocol_fee_collected * s.pool.season_pool_share_bps / BPS_DENOMINATOR))
      s.pool_balance

lemma getD_eq_get {α : Type} (l : List α) (d : α) {i : Nat} (h : i < l.length) :
    l.getD i d = l[i] := by
  simp [List.getD_eq_getElem?_getD, List.getElem?_eq_getElem h]

lemma basePayout_cons (odds : List LockedOdds) (p : Prediction) (l : List Prediction) :
    basePayout odds (p :: l) = legPayout odds p + basePayout odds l := by
  simp [basePayout]

lemma ODDS_SCALE_ne_zero : ODDS_SCALE ≠ 0 := by decide

lemma mul_lt_u128 {a b : Nat} (ha : a < U64_MOD) (hb : b < U64_MOD) : a * b < U128_MOD := by
  calc a * b < U64_MOD * U64_MOD := Nat.mul_lt_mul'' ha hb
  _ = U128_MOD := by norm_num [U64_MOD, U128_MOD]

/-- One fully passing leg advances the loop, adding its payout to the
accumulator. -/
lemma calcLoop_cons_pass (results : List MatchOutcome) (odds : List LockedOdds)
    (p : Prediction) (rest : List Prediction) (acc : Nat)
    (hready : LegReady results odds p) (hcorrect : LegCorrect results p)
    (hacc : acc + legPayout odds p < U64_MOD) :
    calcLoop results odds (p :: rest) acc =
      calcLoop results odds rest (acc + legPayout odds p) := by
  obtain ⟨h1, h2, hlock, ham, hod⟩ := hready
  have hres : results[p.match_index]? = some results[p.match_index] :=
    List.getElem?_eq_getElem h1
  have hodz : odds[p.match_index]? = some odds[p.match_index] :=
    List.getElem?_eq_getElem h2
  have hmr : results[p.match_index] = decodeOutcome p.predicted_outcome := by
    rw [← getD_eq_get results MatchOutcome.Pending h1]; exact hcorrect
  have hlo : (odds[p.match_index]).locked = true := by
    rw [← getD_eq_get odds noOdds h2]; exact hlock
  have hpo : (odds[p.match_index]).get_odds p.predicted_outcome = predOdds odds p := by
    rw [predOdds, getD_eq_get odds noOdds h2]
  have hlegfit : legPayout odds p < U64_MOD := by
    have := Nat.le_add_left (legPayout odds p) acc
    omega
  rw [calcLoop]
  simp only [hres, hodz, hmr, hlo, hpo]
  rw [if_neg (by simp)]
  rw [if_neg (by simp)]
  have hmul : checked_mul_u128 p.amount_in_pool (predOdds odds p) =
      some (p.amount_in_pool * predOdds odds p) := by
    rw [checked_mul_u128, if_pos (mul_lt_u128 ham hod)]
  have hdiv : checked_div_u128 (p.amount_in_pool * predOdds odds p) ODDS_SCALE =
      some (legPayout odds p) := by
    rw [checked_div_u128, if_neg ODDS_SCALE_ne_zero, legPayout]
  have hcast : cast_u64 (legPayout odds p) = legPayout odds p :=
    Nat.mod_eq_of_lt hlegfit
  simp only [hmul, hdiv, hcast, u64add, if_pos hacc]

/-- A fully passing prefix of legs advances the loop across it, adding its
base payout to the accumulator. -/
lemma calcLoop_append (results : List MatchOutcome) (odds : List LockedOdds) :
    ∀ (pre rest : List Prediction) (acc : Nat),
    (∀ q ∈ pre, LegReady results odds q ∧ LegCorrect results q) →
    acc + basePayout odds pre < U64_MOD →
    calcLoop results odds (pre ++ rest) acc =
      calcLoop results odds rest (acc + basePayout odds pre) := by
  intro pre
  induction pre with
  | nil => intro rest acc _ _; simp [basePayout]
  | cons p tl ih =>
    intro rest acc hall hacc
    have hp := hall p (List.mem_cons_self p tl)
    have hbc := basePayout_cons odds p tl
    have hstep : calcLoop results odds (p :: (tl ++ rest)) acc =
        calcLoop results odds (tl ++ rest) (acc + legPayout odds p) := by
      apply calcLoop_cons_pass results odds p (tl ++ rest) acc hp.1 hp.2
      omega
    calc calcLoop results odds ((p :: tl) ++ rest) acc
        = calcLoop results odds (tl ++ rest) (acc + legPayout odds p) := hstep
      _ = calcLoop results odds rest ((acc + legPayout odds p) + basePayout odds tl) := by
          apply ih rest (acc + legPayout odds p)
            (fun q hq => hall q (List.mem_cons_of_mem p hq))
          omega
      _ = calcLoop results odds rest (acc + basePayout odds (p :: tl)) := by
          rw [hbc]; ring_nf

/-- When every leg passes, the loop returns `all_correct` with the summed
base payout. -/
lemma calcLoop_all_correct (results : List MatchOutcome) (odds : List LockedOdds)
    (preds : List Prediction) (acc : Nat)
    (hall : ∀ q ∈ preds, LegReady results odds q ∧ LegCorrect results q)
    (hacc : acc + basePayout odds preds < U64_MOD) :
    calcLoop results odds preds acc = .ok (true, acc + basePayout odds preds) := by
  have := calcLoop_append results odds preds [] acc hall hacc
  rw [List.append_nil] at this
  rw [this, calcLoop]

/-- A wrong leg among in-range legs makes the loop break with
`all_correct = false`. -/
lemma calcLoop_wrong (results : List MatchOutcome) (odds : List LockedOdds) :
    ∀ (preds : List Prediction) (acc : Nat),
    (∀ q ∈ preds, LegReady results odds q) →
    acc + basePayout odds preds < U64_MOD →
    (∃ q ∈ preds, ¬ LegCorrect results q) →
    ∃ b, calcLoop results odds preds acc = .ok (false, b) := by
  intro preds
  induction preds with
  | nil => intro acc _ _ hex; obtain ⟨q, hq, _⟩ := hex; cases hq
  | cons p tl ih =>
    intro acc hall hacc hex
    by_cases hc : LegCorrect results p
    · have hp := hall p (List.mem_cons_self p tl)
      have hbc := basePayout_cons odds p tl
      have hstep := calcLoop_cons_pass results odds p tl acc hp hc (by omega)
      rw [hstep]
      apply ih (acc + legPayout odds p)
        (fun q hq => hall q (List.mem_cons_of_mem p hq)) (by omega)
      obtain ⟨q, hq, hnc⟩ := hex
      rcases List.mem_cons.mp hq with h | h
      · exact absurd (h ▸ hnc) (by simp [hc])
      · exact ⟨q, h, hnc⟩
    · obtain ⟨h1, h2, _, _, _⟩ := hall p (List.mem_cons_self p tl)
      have hres : results[p.match_index]? = some results[p.match_index] :=
        List.getElem?_eq_getElem h1
      have hodz : odds[p.match_index]? = some odds[p.match_index] :=
        List.getElem?_eq_getElem h2
      have hmr : results[p.match_index] ≠ decodeOutcome p.predicted_outcome := by
        rw [← getD_eq_get results MatchOutcome.Pending h1]; exact hc
      refine ⟨acc, ?_⟩
      rw [calcLoop]
      simp only [hres, hodz]
      rw [if_pos (by simp [hmr])]

/-- Reaching a correct leg whose odds are unlocked raises `OddsNotLocked`. -/
lemma calcLoop_unlocked (results : List MatchOutcome) (odds : List LockedOdds)
    (pre : List Prediction) (p : Prediction) (rest : List Prediction) (acc : Nat)
    (hpre : ∀ q ∈ pre, LegReady results odds q ∧ LegCorrect results q)
    (hacc : acc + basePayout odds pre < U64_MOD)
    (h1 : p.match_index < results.length) (h2 : p.match_index < odds.length)
    (hc : LegCorrect results p)
    (hul : (odds.getD p.match_index noOdds).locked = false) :
    calcLoop results odds (pre ++ p :: rest) acc = .err .OddsNotLocked := by
  rw [calcLoop_append results odds pre (p :: rest) acc hpre hacc]
  have hres : results[p.match_index]? = some results[p.match_index] :=
    List.getElem?_eq_getElem h1
  have hodz : odds[p.match_index]? = some odds[p.match_index] :=
    List.getElem?_eq_getElem h2
  have hmr : results[p.match_index] = decodeOutcome p.predicted_outcome := by
    rw [← getD_eq_get results MatchOutcome.Pending h1]; exact hc
  have hlo : (odds[p.match_index]).locked = false := by
    rw [← getD_eq_get odds noOdds h2]; exact hul
  rw [calcLoop]
  simp only [hres, hodz, hmr, hlo]
  rw [if_neg (by simp)]
  simp

/-- Reaching a leg whose match index is out of range of either sequence
panics the loop. -/
lemma calcLoop_oob (results : List MatchOutcome) (odds : List LockedOdds)
    (pre : List Prediction) (p : Prediction) (rest : List Prediction) (acc : Nat)
    (hpre : ∀ q ∈ pre, LegReady results odds q ∧ LegCorrect results q)
    (hacc : acc + basePayout odds pre < U64_MOD)
    (hoob : results.length ≤ p.match_index ∨ odds.length ≤ p.match_index) :
    calcLoop results odds (pre ++ p :: rest) acc = .trap := by
  rw [calcLoop_append results odds pre (p :: rest) acc hpre hacc]
  rw [calcLoop]
  rcases hoob with h | h
  · rw [List.getElem?_eq_none h]
  · rw [List.getElem?_eq_none h]
    rcases hres : results[p.match_index]? with _ | mr <;> simp

/-- With `u64`-ranged stakes and rates, the widened per-leg arithmetic never
returns `CalculationOverflow`: the `u128` accumulator cannot overflow. -/
lemma calcLoop_ne_overflow (results : List MatchOutcome) (odds : List LockedOdds) :
    ∀ (preds : List Prediction) (acc : Nat),
    (∀ q ∈ preds, q.amount_in_pool < U64_MOD ∧ predOdds odds q < U64_MOD) →
    calcLoop results odds preds acc ≠ .err .CalculationOverflow := by
  intro preds
  induction preds with
  | nil => intro acc _; rw [calcLoop]; simp
  | cons p tl ih =>
    intro acc hall
    obtain ⟨ham, hod⟩ := hall p (List.mem_cons_self p tl)
    rw [calcLoop]
    rcases hres : results[p.match_index]? with _ | mr
    · simp
    · rcases hodz : odds[p.match_index]? with _ | lo
      · simp
      · simp only []
        by_cases hw : mr ≠ decodeOutcome p.predicted_outcome
        · rw [if_pos hw]; simp
        · rw [if_neg hw]
          by_cases hl : lo.locked = false
          · rw [if_pos hl]; simp
          · rw [if_neg hl]
            have h2 : p.match_index < odds.length := by
              rcases List.getElem?_eq_some.mp hodz with ⟨h, _⟩
              exact h
            have hlo : lo = odds[p.match_index] := by
              rcases List.getElem?_eq_some.mp hodz with ⟨h, he⟩
              exact he.symm
            have hodv : lo.get_odds p.predicted_outcome < U64_MOD := by
              rw [hlo]
              rw [predOdds, getD_eq_get odds noOdds h2] at hod
              exact hod
            have hmul : checked_mul_u128 p.amount_in_pool (lo.get_odds p.predicted_outcome) =
                some (p.amount_in_pool * lo.get_odds p.predicted_outcome) := by
              rw [checked_mul_u128, if_pos (mul_lt_u128 ham hodv)]
            have hdiv : checked_div_u128
                (p.amount_in_pool * lo.get_odds p.predicted_outcome) ODDS_SCALE =
                some (p.amount_in_pool * lo.get_odds p.predicted_outcome / ODDS_SCALE) := by
              rw [checked_div_u128, if_neg ODDS_SCALE_ne_zero]
            simp only [hmul, hdiv]
            rcases hadd : u64add acc
                (cast_u64 (p.amount_in_pool * lo.get_odds p.predicted_outcome / ODDS_SCALE)) with _ | acc2
            · simp
            · simp only []
              exact ih acc2 (fun q hq => hall q (List.mem_cons_of_mem p hq))

/-- The loop's returned base payout stays in `u64` range. -/
lemma calcLoop_ok_bound (results : List MatchOutcome) (odds : List LockedOdds) :
    ∀ (preds : List Prediction) (acc : Nat) (w : Bool) (b : Nat),
    acc < U64_MOD → calcLoop results odds preds acc = .ok (w, b) → b < U64_MOD := by
  intro preds
  induction preds with
  | nil =>
    intro acc w b hacc h
    rw [calcLoop] at h
    injection h with h2
    injection h2 with _ hb
    omega
  | cons p tl ih =>
    intro acc w b hacc h
    rw [calcLoop] at h
    rcases hres : results[p.match_index]? with _ | mr
    · simp [hres] at h
    · rcases hodz : odds[p.match_index]? with _ | lo
      · simp [hres, hodz] at h
      · simp only [hres, hodz] at h
        by_cases hw : mr ≠ decodeOutcome p.predicted_outcome
        · rw [if_pos hw] at h
          injection h with h2
          injection h2 with _ hb
          omega
        · rw [if_neg hw] at h
          by_cases hl : lo.locked = false
          · rw [if_pos hl] at h; cases h
          · rw [if_neg hl] at h
            rcases hmul : checked_mul_u128 p.amount_in_pool
                (lo.get_odds p.predicted_outcome) with _ | prod
            · simp [hmul] at h
            · simp only [hmul] at h
              rcases hdiv : checked_div_u128 prod ODDS_SCALE with _ | q
              · simp [hdiv] at h
              · simp only [hdiv] at h
                rcases hadd : u64add acc (cast_u64 q) with _ | acc2
                · simp [hadd] at h
                · simp only [hadd] at h
                  have hacc2 : acc2 < U64_MOD := by
                    rw [u64add] at hadd
                    by_cases hlt : acc + cast_u64 q < U64_MOD
                    · rw [if_pos hlt] at hadd; injection hadd with he; omega
                    · rw [if_neg hlt] at hadd; cases hadd
                  exact ih acc2 w b hacc2 h

lemma calc_deadline_invariant (b : Bet) (r : RoundAccounting) (d : Int) :
    calculate_bet_payout { b with claim_deadline := d } r = calculate_bet_payout b r := rfl

/-- When every leg is correct, locked and in range, the payout is the spec's
formula: summed truncating leg payouts, one multiplier, capped. -/
lemma calc_all_correct (bet : Bet) (round : RoundAccounting)
    (hall : ∀ q ∈ bet.predictions,
      LegReady round.match_results round.locked_odds q ∧ LegCorrect round.match_results q)
    (hbase : basePayout round.locked_odds bet.predictions < U64_MOD)
    (hmult : bet.locked_multiplier < U64_MOD)
    (hfin : basePayout round.locked_odds bet.predictions * bet.locked_multiplier / ODDS_SCALE
            < U64_MOD) :
    calculate_bet_payout bet round =
      .ok (true, basePayout round.locked_odds bet.predictions,
           min (basePayout round.locked_odds bet.predictions * bet.locked_multiplier / ODDS_SCALE)
               MAX_PAYOUT_PER_BET) := by
  have hloop := calcLoop_all_correct round.match_results round.locked_odds
    bet.predictions 0 hall (by omega)
  rw [calculate_bet_payout, Bet.get_predictions, hloop]
  simp only [Nat.zero_add]
  have hmul : checked_mul_u128 (basePayout round.locked_odds bet.predictions)
      bet.locked_multiplier =
      some (basePayout round.locked_odds bet.predictions * bet.locked_multiplier) := by
    rw [checked_mul_u128, if_pos (mul_lt_u128 hbase hmult)]
  have hdiv : checked_div_u128
      (basePayout round.locked_odds bet.predictions * bet.locked_multiplier) ODDS_SCALE =
      some (basePayout round.locked_odds bet.predictions * bet.locked_multiplier / ODDS_SCALE) := by
    rw [checked_div_u128, if_neg ODDS_SCALE_ne_zero]
  simp only [hmul, hdiv]
  have hcast : cast_u64 (basePayout round.locked_odds bet.predictions *
      bet.locked_multiplier / ODDS_SCALE) =
      basePayout round.locked_odds bet.predictions * bet.locked_multiplier / ODDS_SCALE :=
    Nat.mod_eq_of_lt hfin
  simp only [gt_iff_lt, Nat.min_def, hcast]
  split_ifs <;> first | rfl | omega

/-- A wrong leg among ready legs yields `(false, 0, 0)`. -/
lemma calc_wrong (bet : Bet) (round : RoundAccounting)
    (hall : ∀ q ∈ bet.predictions, LegReady round.match_results round.locked_odds q)
    (hbase : basePayout round.locked_odds bet.predictions < U64_MOD)
    (hex : ∃ q ∈ bet.predictions, ¬ LegCorrect round.match_results q) :
    calculate_bet_payout bet round = .ok (false, 0, 0) := by
  obtain ⟨b, hloop⟩ := calcLoop_wrong round.match_results round.locked_odds
    bet.predictions 0 hall (by omega) hex
  rw [calculate_bet_payout, Bet.get_predictions, hloop]

/-- A reached correct leg with unlocked odds fails with `OddsNotLocked`. -/
lemma calc_unlocked (bet : Bet) (round : RoundAccounting)
    (pre : List Prediction) (p : Prediction) (rest : List Prediction)
    (hsplit : bet.predictions = pre ++ p :: rest)
    (hpre : ∀ q ∈ pre,
      LegReady round.match_results round.locked_odds q ∧ LegCorrect round.match_results q)
    (hbase : basePayout round.locked_odds pre < U64_MOD)
    (h1 : p.match_index < round.match_results.length)
    (h2 : p.match_index < round.locked_odds.length)
    (hc : LegCorrect round.match_results p)
    (hul : (round.locked_odds.getD p.match_index noOdds).locked = false) :
    calculate_bet_payout bet round = .err .OddsNotLocked := by
  rw [calculate_bet_payout, Bet.get_predictions, hsplit,
    calcLoop_unlocked round.match_results round.locked_odds pre p rest 0 hpre
      (by omega) h1 h2 hc hul]

/-- A reached out-of-range leg panics the calculation. -/
lemma calc_oob (bet : Bet) (round : RoundAccounting)
    (pre : List Prediction) (p : Prediction) (rest : List Prediction)
    (hsplit : bet.predictions = pre ++ p :: rest)
    (hpre : ∀ q ∈ pre,
      LegReady round.match_results round.locked_odds q ∧ LegCorrect round.match_results q)
    (hbase : basePayout round.locked_odds pre < U64_MOD)
    (hoob : round.match_results.length ≤ p.match_index ∨
            round.locked_odds.length ≤ p.match_index) :
    calculate_bet_payout bet round = .trap := by
  rw [calculate_bet_payout, Bet.get_predictions, hsplit,
    calcLoop_oob round.match_results round.locked_odds pre p rest 0 hpre (by omega) hoob]

/-- With `u64`-ranged fields, `CalculationOverflow` is unreachable in the
payout calculation. -/
lemma calc_ne_overflow (bet : Bet) (round : RoundAccounting)
    (hwf : ∀ q ∈ bet.predictions,
      q.amount_in_pool < U64_MOD ∧ predOdds round.locked_odds q < U64_MOD)
    (hmult : bet.locked_multiplier < U64_MOD) :
    calculate_bet_payout bet round ≠ .err .CalculationOverflow := by
  rw [calculate_bet_payout, Bet.get_predictions]
  rcases hloop : calcLoop round.match_results round.locked_odds bet.predictions 0 with
    ⟨w, b⟩ | e | _
  · rcases w with _ | _
    · simp
    · have hb : b < U64_MOD :=
        calcLoop_ok_bound round.match_results round.locked_odds bet.predictions 0 true b
          (by rw [U64_MOD]; positivity) hloop
      have hmul : checked_mul_u128 b bet.locked_multiplier =
          some (b * bet.locked_multiplier) := by
        rw [checked_mul_u128, if_pos (mul_lt_u128 hb hmult)]
      have hdiv : checked_div_u128 (b * bet.locked_multiplier) ODDS_SCALE =
          some (b * bet.locked_multiplier / ODDS_SCALE) := by
        rw [checked_div_u128, if_neg ODDS_SCALE_ne_zero]
      simp [hmul, hdiv]
  · have := calcLoop_ne_overflow round.match_results round.locked_odds bet.predictions 0 hwf
    rw [hloop] at this
    rcases e <;> simp_all
  · simp

/-- The final payout of a successful calculation never exceeds the per-bet
cap. -/
lemma calc_final_le (bet : Bet) (round : RoundAccounting) (w : Bool) (base P : Nat)
    (h : calculate_bet_payout bet round = .ok (w, base, P)) :
    P ≤ MAX_PAYOUT_PER_BET := by
  rw [calculate_bet_payout, Bet.get_predictions] at h
  rcases hloop : calcLoop round.match_results round.locked_odds bet.predictions 0 with
    ⟨w2, b⟩ | e | _ <;> rw [hloop] at h
  · rcases w2 with _ | _
    · injection h with h2
      injection h2 with _ h3
      injection h3 with _ h4
      omega
    · rcases hmul : checked_mul_u128 b bet.locked_multiplier with _ | prod
      · simp [hmul] at h
      · simp only [hmul] at h
        rcases hdiv : checked_div_u128 prod ODDS_SCALE with _ | q
        · simp [hdiv] at h
        · simp only [hdiv] at h
          injection h with h2
          injection h2 with _ h3
          injection h3 with _ h4
          rw [← h4]
          split <;> omega
  · cases h
  · cases h

lemma payout_transfers_ok (s : ClaimState) (bet3 : Bet) (round2 : RoundAccounting)
    (fp ba bo : Nat) (s2 : ClaimState)
    (h : payout_transfers s bet3 round2 fp ba bo = .ok s2) :
    s2.round = round2 ∧ s2.bet = bet3 := by
  rw [payout_transfers] at h
  split at h
  · cases h
  · split at h
    · cases h
    · rename_i pr heq
      split at h
      · split at h
        · cases h
        · injection h with h2
          rw [← h2]
          exact ⟨rfl, rfl⟩
      · injection h with h2
        rw [← h2]
        exact ⟨rfl, rfl⟩

lemma claim_winnings_core_ok_cases (s : ClaimState) (a : ClaimArgs) (bet1 : Bet)
    (s2 : ClaimState) (h : claim_winnings_core s a bet1 = .ok s2) :
    s2.round.total_reserved_for_winners = s.round.total_reserved_for_winners ∧
    ((s2.round.total_claimed = s.round.total_claimed ∧
      s2.round.total_paid_out = s.round.total_paid_out) ∨
     (∃ P, 0 < P ∧
        s2.round.total_claimed = s.round.total_claimed + P ∧
        s2.round.total_paid_out = s.round.total_paid_out + P ∧
        s2.round.total_paid_out ≤ MAX_ROUND_PAYOUTS)) := by
  rw [claim_winnings_core] at h
  split at h
  · cases h
  · split at h
    · cases h
    · cases h
    · rename_i won base P heqcalc
      split at h
      · cases h
      · split at h
        · -- winning branch
          rename_i hwin
          split at h
          · cases h
          · rename_i pf hpf
            split at h
            · cases h
            · rename_i hcap
              split at h
              · cases h
              · rename_i tc htc
                have hpf2 : pf = s.round.total_paid_out + P := by
                  rw [u64add] at hpf
                  split at hpf
                  · injection hpf with he; omega
                  · cases hpf
                have htc2 : tc = s.round.total_claimed + P := by
                  rw [u64add] at htc
                  split at htc
                  · injection htc with he; omega
                  · cases htc
                split at h
                · split at h
                  · cases h
                  · split at h
                    · cases h
                    · obtain ⟨hr, _⟩ := payout_transfers_ok _ _ _ _ _ _ _ h
                      refine ⟨by rw [hr], Or.inr ⟨P, hwin.2, ?_, ?_, ?_⟩⟩ <;>
                        rw [hr] <;> simp <;> omega
                · obtain ⟨hr, _⟩ := payout_transfers_ok _ _ _ _ _ _ _ h
                  refine ⟨by rw [hr], Or.inr ⟨P, hwin.2, ?_, ?_, ?_⟩⟩ <;>
                    rw [hr] <;> simp <;> omega
        · -- losing branch
          injection h with h2
          rw [← h2]
          exact ⟨rfl, Or.inl ⟨rfl, rfl⟩⟩

lemma claim_winnings_ok_cases (s : ClaimState) (a : ClaimArgs) (s2 : ClaimState)
    (h : claim_winnings s a = .ok s2) :
    s2.round.total_reserved_for_winners = s.round.total_reserved_for_winners ∧
    ((s2.round.total_claimed = s.round.total_claimed ∧
      s2.round.total_paid_out = s.round.total_paid_out) ∨
     (∃ P, 0 < P ∧
        s2.round.total_claimed = s.round.total_claimed + P ∧
        s2.round.total_paid_out = s.round.total_paid_out + P ∧
        s2.round.total_paid_out ≤ MAX_ROUND_PAYOUTS)) := by
  rw [claim_winnings] at h
  split at h
  · cases h
  · split at h
    · cases h
    · split at h
      · exact claim_winnings_core_ok_cases _ _ _ _ h
      · exact claim_winnings_core_ok_cases _ _ _ _ h

lemma claim_winnings_as_core (s : ClaimState) (a : ClaimArgs)
    (hset : s.round.settled = true) (hncl : s.bet.claimed = false) :
    ∃ bet1 : Bet,
      claim_winnings s a = claim_winnings_core s a bet1 ∧
      calculate_bet_payout bet1 s.round = calculate_bet_payout s.bet s.round ∧
      bet1.bettor = s.bet.bettor := by
  rw [claim_winnings, if_neg (by simp [hset]), if_neg (by simp [hncl])]
  by_cases hd : s.bet.claim_deadline = 0
  · rw [if_pos hd]
    exact ⟨_, rfl, calc_deadline_invariant s.bet s.round _, rfl⟩
  · rw [if_neg hd]
    exact ⟨s.bet, rfl, rfl, rfl⟩

/-- Evaluation of a winning non-bounty claim body (claimer is allowed and
not a bounty hunter). -/
lemma claim_winnings_core_win_bettor (s : ClaimState) (a : ClaimArgs) (bet1 : Bet)
    (base P : Nat)
    (hcalc : calculate_bet_payout bet1 s.round = .ok (true, base, P))
    (hwindow : ¬(a.current_time ≤ s.round.round_end_time + 86400 ∧ a.claimer ≠ s.bet.bettor))
    (hnb : ¬(s.round.round_end_time + 86400 < a.current_time ∧ a.claimer ≠ s.bet.bettor))
    (hmin : a.min_payout ≤ P) (hP : 0 < P)
    (hpf : s.round.total_paid_out + P < U64_MOD)
    (hcap : s.round.total_paid_out + P ≤ MAX_ROUND_PAYOUTS)
    (htc : s.round.total_claimed + P < U64_MOD)
    (hpool : P ≤ s.pool_balance)
    (hbb : s.bettor_balance + P < U64_MOD) :
    claim_winnings_core s a bet1 =
      .ok { bet := { bet1 with
                     claimed := true, settled := true },
            round := { s.round with
                       total_claimed := s.round.total_claimed + P,
                       total_paid_out := s.round.total_paid_out + P },
            pool_balance := s.pool_balance - P,
            bettor_balance := s.bettor_balance + P,
            claimer_balance := s.claimer_balance } := by
  rw [claim_winnings_core, if_neg hwindow, hcalc]
  simp only []
  rw [if_neg (by omega)]
  rw [if_pos ⟨by trivial, hP⟩]
  rw [u64add, if_pos hpf]
  simp only []
  rw [if_neg (by omega)]
  rw [u64add, if_pos htc]
  simp only []
  rw [if_neg hnb]
  rw [payout_transfers, if_neg (by omega)]
  rw [transfer, if_neg (by omega), u64add, if_pos hbb]
  simp only []
  rw [if_neg (by omega)]

/-- Evaluation of a winning bounty claim body (past-deadline third party):
90/10 split, bounty claimer recorded. -/
lemma claim_winnings_core_win_bounty (s : ClaimState) (a : ClaimArgs) (bet1 : Bet)
    (base P : Nat)
    (hcalc : calculate_bet_payout bet1 s.round = .ok (true, base, P))
    (hb : s.round.round_end_time + 86400 < a.current_time ∧ a.claimer ≠ s.bet.bettor)
    (hmin : a.min_payout ≤ P) (hP : 0 < P)
    (hpf : s.round.total_paid_out + P < U64_MOD)
    (hcap : s.round.total_paid_out + P ≤ MAX_ROUND_PAYOUTS)
    (htc : s.round.total_claimed + P < U64_MOD)
    (hpool : P ≤ s.pool_balance)
    (hPU : P < U64_MOD)
    (hbb : s.bettor_balance + P < U64_MOD)
    (hcb : s.claimer_balance + P < U64_MOD) :
    claim_winnings_core s a bet1 =
      .ok { bet := { bet1 with
                     claimed := true, settled := true, bounty_claimer := some a.claimer },
            round := { s.round with
                       total_claimed := s.round.total_claimed + P,
                       total_paid_out := s.round.total_paid_out + P },
            pool_balance := s.pool_balance - P,
            bettor_balance := s.bettor_balance + (P - P * 1000 / 10000),
            claimer_balance := s.claimer_balance + P * 1000 / 10000 } := by
  have hwindow : ¬(a.current_time ≤ s.round.round_end_time + 86400 ∧
      a.claimer ≠ s.bet.bettor) := by
    intro hc
    exact absurd hb.1 (by omega)
  have hbo : P * 1000 / 10000 ≤ P := by
    have h1 : P * 1000 / 10000 ≤ P * 1000 / 1000 :=
      Nat.div_le_div_left (by omega) (by omega)
    have h2 : P * 1000 / 1000 = P := Nat.mul_div_cancel P (by omega)
    omega
  have hmul1000 : P * 1000 < U128_MOD := by
    have h1 : P * 1000 < U64_MOD * 1000 := by
      exact Nat.mul_lt_mul_of_lt_of_le hPU (le_refl 1000) (by omega)
    have h2 : U64_MOD * 1000 < U128_MOD := by norm_num [U64_MOD, U128_MOD]
    omega
  rw [claim_winnings_core, if_neg hwindow, hcalc]
  simp only []
  rw [if_neg (by omega)]
  rw [if_pos ⟨by trivial, hP⟩]
  rw [u64add, if_pos hpf]
  simp only []
  rw [if_neg (by omega)]
  rw [u64add, if_pos htc]
  simp only []
  rw [if_pos hb]
  rw [checked_mul_u128, if_pos hmul1000]
  simp only []
  rw [checked_div_u128, if_neg (by omega)]
  simp only []
  have hcast : cast_u64 (P * 1000 / 10000) = P * 1000 / 10000 :=
    Nat.mod_eq_of_lt (lt_of_le_of_lt hbo hPU)
  rw [hcast]
  rw [payout_transfers, if_neg (by omega)]
  rw [transfer, if_neg (by omega), u64add, if_pos (by omega)]
  simp only []
  by_cases hbpos : 0 < P * 1000 / 10000
  · rw [if_pos hbpos]
    rw [transfer, if_neg (by omega), u64add, if_pos (by omega)]
    simp only []
    congr 1
    simp only [ClaimState.mk.injEq]
    and_intros <;> first | rfl | trivial | omega
  · rw [if_neg hbpos]
    congr 1
    simp only [ClaimState.mk.injEq]
    and_intros <;> first | rfl | trivial | omega

/-- A winning claim whose payout would push `total_paid_out` past the round
cap fails with `RoundPayoutLimitReached`. -/
lemma claim_winnings_core_cap_err (s : ClaimState) (a : ClaimArgs) (bet1 : Bet)
    (base P : Nat)
    (hcalc : calculate_bet_payout bet1 s.round = .ok (true, base, P))
    (hwindow : ¬(a.current_time ≤ s.round.round_end_time + 86400 ∧ a.claimer ≠ s.bet.bettor))
    (hmin : a.min_payout ≤ P) (hP : 0 < P)
    (hpf : s.round.total_paid_out + P < U64_MOD)
    (hover : MAX_ROUND_PAYOUTS < s.round.total_paid_out + P) :
    claim_winnings_core s a bet1 = .err .RoundPayoutLimitReached := by
  rw [claim_winnings_core, if_neg hwindow, hcalc]
  simp only []
  rw [if_neg (by omega)]
  rw [if_pos ⟨by trivial, hP⟩]
  rw [u64add, if_pos hpf]
  simp only []
  rw [if_pos (by omega)]

/-- Within the claim window a non-bettor claim fails with `NotBettor`. -/
lemma claim_winnings_core_notbettor (s : ClaimState) (a : ClaimArgs) (bet1 : Bet)
    (htime : a.current_time ≤ s.round.round_end_time + 86400)
    (hne : a.claimer ≠ s.bet.bettor) :
    claim_winnings_core s a bet1 = .err .NotBettor := by
  rw [claim_winnings_core, if_pos ⟨htime, hne⟩]

/-- C1: for a bet whose legs are all in range, locked, `u64`-sized and whose
payout sums stay in `u64` range, `calculate_bet_payout` returns
`won = true`, the summed truncating leg payouts, and the multiplier-scaled
result capped at `MAX_PAYOUT_PER_BET` when every leg matches the recorded
result; it returns `(false, 0, 0)` when at least one leg differs. -/
theorem C1_payout_formula :
    ∀ (bet : Bet) (round : RoundAccounting),
    (∀ q ∈ bet.predictions, LegReady round.match_results round.locked_odds q) →
    basePayout round.locked_odds bet.predictions < U64_MOD →
    bet.locked_multiplier < U64_MOD →
    basePayout round.locked_odds bet.predictions * bet.locked_multiplier / ODDS_SCALE
      < U64_MOD →
    ((∀ q ∈ bet.predictions, LegCorrect round.match_results q) →
       calculate_bet_payout bet round =
         .ok (true, basePayout round.locked_odds bet.predictions,
              min (basePayout round.locked_odds bet.predictions * bet.locked_multiplier
                    / ODDS_SCALE)
                  MAX_PAYOUT_PER_BET)) ∧
    ((∃ q ∈ bet.predictions, ¬ LegCorrect round.match_results q) →
       calculate_bet_payout bet round = .ok (false, 0, 0)) := by
  intro bet round hready hbase hmult hfin
  constructor
  · intro hcorr
    exact calc_all_correct bet round (fun q hq => ⟨hready q hq, hcorr q hq⟩) hbase hmult hfin
  · intro hex
    exact calc_wrong bet round hready hbase hex

/-- Witness for C1 on the spec's worked example: base payout 350, final
payout 420. -/
theorem C1_payout_formula_witness :
    calculate_bet_payout specBet specRound =
      .ok (true, basePayout specRound.locked_odds specBet.predictions,
           min (basePayout specRound.locked_odds specBet.predictions *
                 specBet.locked_multiplier / ODDS_SCALE)
               MAX_PAYOUT_PER_BET) :=
  (C1_payout_formula specBet specRound (by decide) (by decide) (by decide) (by decide)).1
    (by decide)

/-- C2 counterexample: a state satisfying
`total_claimed ≤ total_reserved_for_winners` (0 ≤ 0 here) from which a
successful claim produces `total_claimed = 420 > 0 = total_reserved_for_winners`:
the handler never checks `total_reserved_for_winners`. -/
theorem C2_invariant_counterexample :
    specState.round.total_claimed ≤ specState.round.total_reserved_for_winners ∧
    claim_winnings specState specArgsBettor = .ok specResultBettor ∧
    specResultBettor.round.total_reserved_for_winners <
      specResultBettor.round.total_claimed := by
  refine ⟨by decide, by rfl, by decide⟩

/-- C2 amended: a successful claim leaves `total_reserved_for_winners`
unchanged and never decreases `total_claimed`; the invariant
`total_claimed ≤ total_reserved_for_winners` is preserved exactly when the
incremented `total_claimed` still fits under `total_reserved_for_winners` —
the handler itself enforces only the `MAX_ROUND_PAYOUTS` cap. -/
theorem C2_amended_invariant_condition :
    ∀ (s : ClaimState) (a : ClaimArgs) (s2 : ClaimState),
    claim_winnings s a = .ok s2 →
    s2.round.total_reserved_for_winners = s.round.total_reserved_for_winners ∧
    s.round.total_claimed ≤ s2.round.total_claimed ∧
    (s2.round.total_claimed ≤ s.round.total_reserved_for_winners →
      s2.round.total_claimed ≤ s2.round.total_reserved_for_winners) := by
  intro s a s2 h
  obtain ⟨hres, hd⟩ := claim_winnings_ok_cases s a s2 h
  refine ⟨hres, ?_, ?_⟩
  · rcases hd with ⟨hc, _⟩ | ⟨P, _, hc, _, _⟩ <;> omega
  · intro hle; omega

/-- Witness for the amended C2 on the spec claim. -/
theorem C2_amended_witness :
    specResultBettor.round.total_reserved_for_winners =
      specState.round.total_reserved_for_winners ∧
    specState.round.total_claimed ≤ specResultBettor.round.total_claimed ∧
    (specResultBettor.round.total_claimed ≤ specState.round.total_reserved_for_winners →
      specResultBettor.round.total_claimed ≤
        specResultBettor.round.total_reserved_for_winners) :=
  C2_amended_invariant_condition specState specArgsBettor specResultBettor (by rfl)

/-- C3: at an extreme stake and odds the true leg quotient exceeds the `u64`
range, yet `calculate_bet_payout` succeeds with the quotient silently
truncated mod `2 ^ 64` (and then capped) instead of failing with
`CalculationOverflow`: the `u128` steps cannot overflow, and the narrowing
casts do not error. -/
theorem C3_truncated_payout_no_error :
    2 ^ 64 ≤ (2 ^ 64 - 1) * (2 ^ 64 - 1) / ODDS_SCALE ∧
    calculate_bet_payout hugeBet hugeRound =
      .ok (true, (2 ^ 64 - 1) * (2 ^ 64 - 1) / ODDS_SCALE % 2 ^ 64, MAX_PAYOUT_PER_BET) ∧
    (2 ^ 64 - 1) * (2 ^ 64 - 1) / ODDS_SCALE % 2 ^ 64 ≠
      (2 ^ 64 - 1) * (2 ^ 64 - 1) / ODDS_SCALE := by
  refine ⟨by decide, by decide, by decide⟩

/-- C4 counterexample: a bet referencing a match with unlocked odds whose
(single) leg is wrong returns `(false, 0, 0)` — it does not fail with
`OddsNotLocked`, because the wrong-leg break precedes the locked check. -/
theorem C4_unlocked_not_required_counterexample :
    wrongLegBet.predictions =
      [ { match_index := 0, predicted_outcome := 2, amount_in_pool := 100 } ] ∧
    (unlockedRound.locked_odds.getD 0 noOdds).locked = false ∧
    unlockedRound.match_results.getD 0 .Pending ≠ decodeOutcome 2 ∧
    calculate_bet_payout wrongLegBet unlockedRound = .ok (false, 0, 0) := by
  refine ⟨by rfl, by rfl, by decide, by rfl⟩

/-- C4 amended: `calculate_bet_payout` fails with `OddsNotLocked` when the
first unlocked-odds leg is reached, i.e. every earlier leg is in range,
correct and locked, and the unlocked leg's own prediction is correct. -/
theorem C4_amended_odds_not_locked :
    ∀ (bet : Bet) (round : RoundAccounting) (pre : List Prediction) (p : Prediction)
      (rest : List Prediction),
    bet.predictions = pre ++ p :: rest →
    (∀ q ∈ pre, LegReady round.match_results round.locked_odds q ∧
      LegCorrect round.match_results q) →
    basePayout round.locked_odds pre < U64_MOD →
    p.match_index < round.match_results.length →
    p.match_index < round.locked_odds.length →
    LegCorrect round.match_results p →
    (round.locked_odds.getD p.match_index noOdds).locked = false →
    calculate_bet_payout bet round = .err .OddsNotLocked :=
  fun bet round pre p rest h1 h2 h3 h4 h5 h6 h7 =>
    calc_unlocked bet round pre p rest h1 h2 h3 h4 h5 h6 h7

/-- Witness for the amended C4: a correct locked first leg followed by a
correct unlocked second leg fails with `OddsNotLocked`. -/
theorem C4_amended_witness :
    calculate_bet_payout reachedUnlockedBet secondUnlockedRound = .err .OddsNotLocked :=
  C4_amended_odds_not_locked reachedUnlockedBet secondUnlockedRound
    [ { match_index := 0, predicted_outcome := 1, amount_in_pool := 100 } ]
    { match_index := 1, predicted_outcome := 1, amount_in_pool := 100 } []
    (by rfl) (by decide) (by decide) (by decide) (by decide) (by decide) (by decide)

/-- C5: inside the 24-hour window a claim succeeds only for the bettor and
any other claimer fails with `NotBettor`; after the window a winning bet can
be claimed by the bettor for 100% or by any third party for a 90/10 split,
with the bounty equal to `floor(final_payout * 1000 / 10000)`. -/
theorem C5_claim_window_gating :
    ∀ (s : ClaimState) (a : ClaimArgs) (base P : Nat),
    s.round.settled = true →
    s.bet.claimed = false →
    calculate_bet_payout s.bet s.round = .ok (true, base, P) →
    a.min_payout ≤ P →
    0 < P →
    s.round.total_paid_out + P ≤ MAX_ROUND_PAYOUTS →
    s.round.total_claimed + P < U64_MOD →
    P ≤ s.pool_balance →
    s.bettor_balance + P < U64_MOD →
    s.claimer_balance + P < U64_MOD →
    ((a.current_time ≤ s.round.round_end_time + 86400 → a.claimer ≠ s.bet.bettor →
        claim_winnings s a = .err .NotBettor) ∧
     (∀ s2, claim_winnings s a = .ok s2 →
        a.current_time ≤ s.round.round_end_time + 86400 → a.claimer = s.bet.bettor) ∧
     (s.round.round_end_time + 86400 < a.current_time → a.claimer = s.bet.bettor →
        ∃ s2, claim_winnings s a = .ok s2 ∧
          s2.bettor_balance = s.bettor_balance + P ∧
          s2.claimer_balance = s.claimer_balance ∧
          s2.pool_balance = s.pool_balance - P) ∧
     (s.round.round_end_time + 86400 < a.current_time → a.claimer ≠ s.bet.bettor →
        ∃ s2, claim_winnings s a = .ok s2 ∧
          s2.bettor_balance = s.bettor_balance + (P - P * 1000 / 10000) ∧
          s2.claimer_balance = s.claimer_balance + P * 1000 / 10000 ∧
          s2.pool_balance = s.pool_balance - P ∧
          s2.bet.bounty_claimer = some a.claimer)) := by
  intro s a base P hset hncl hcalc hmin hP hcap htc hpool hbb hcb
  obtain ⟨bet1, hcw, hcalc1, hbettor1⟩ := claim_winnings_as_core s a hset hncl
  have hcalcb : calculate_bet_payout bet1 s.round = .ok (true, base, P) := hcalc1.trans hcalc
  have hPU : P < U64_MOD := by
    have h1 := calc_final_le s.bet s.round true base P hcalc
    have h2 : MAX_PAYOUT_PER_BET < U64_MOD := by norm_num [MAX_PAYOUT_PER_BET, U64_MOD]
    omega
  have hpf : s.round.total_paid_out + P < U64_MOD := by
    have h2 : MAX_ROUND_PAYOUTS < U64_MOD := by norm_num [MAX_ROUND_PAYOUTS, U64_MOD]
    omega
  refine ⟨?_, ?_, ?_, ?_⟩
  · intro ht hne
    rw [hcw]
    exact claim_winnings_core_notbettor s a bet1 ht hne
  · intro s2 hok ht
    by_contra hne
    rw [hcw, claim_winnings_core_notbettor s a bet1 ht hne] at hok
    cases hok
  · intro ht heq
    have hwindow : ¬(a.current_time ≤ s.round.round_end_time + 86400 ∧
        a.claimer ≠ s.bet.bettor) := fun hc => hc.2 heq
    have hnb : ¬(s.round.round_end_time + 86400 < a.current_time ∧
        a.claimer ≠ s.bet.bettor) := fun hc => hc.2 heq
    have hok := claim_winnings_core_win_bettor s a bet1 base P hcalcb hwindow hnb hmin hP
      hpf hcap htc hpool hbb
    exact ⟨_, hcw.trans hok, rfl, rfl, rfl⟩
  · intro ht hne
    have hok := claim_winnings_core_win_bounty s a bet1 base P hcalcb ⟨ht, hne⟩ hmin hP
      hpf hcap htc hpool hPU hbb hcb
    exact ⟨_, hcw.trans hok, rfl, rfl, rfl, rfl⟩

/-- Witness for C5: the spec bet claimed after the deadline by a third
party, bounty 42 and bettor share 378. -/
theorem C5_claim_window_gating_witness :
    ∃ s2, claim_winnings specState specArgsHunter = .ok s2 ∧
      s2.bettor_balance = specState.bettor_balance + (420 - 420 * 1000 / 10000) ∧
      s2.claimer_balance = specState.claimer_balance + 420 * 1000 / 10000 ∧
      s2.pool_balance = specState.pool_balance - 420 ∧
      s2.bet.bounty_claimer = some specArgsHunter.claimer :=
  (C5_claim_window_gating specState specArgsHunter 350 420 (by rfl) (by rfl) (by rfl)
      (by decide) (by decide) (by decide) (by decide) (by decide) (by decide)
      (by decide)).2.2.2 (by decide) (by decide)

/-- C6: under the transactional semantics every failing claim or finalize
invocation commits no mutation — the observable state after a failure is
the input state. -/
theorem C6_failure_zero_mutation :
    (∀ (s : ClaimState) (a : ClaimArgs),
       (claim_winnings_tx s a).2 ≠ none → (claim_winnings_tx s a).1 = s) ∧
    (∀ (s : FinalizeState) (a : FinalizeArgs),
       (finalize_round_revenue_tx s a).2 ≠ none → (finalize_round_revenue_tx s a).1 = s) := by
  constructor
  · intro s a h
    cases hres : claim_winnings s a <;> simp [claim_winnings_tx, hres] at h ⊢
  · intro s a h
    cases hres : finalize_round_revenue s a <;>
      simp [finalize_round_revenue_tx, hres] at h ⊢

/-- Witness for C6: a claim on an already claimed bet fails and leaves the
state unchanged. -/
theorem C6_failure_zero_mutation_witness :
    (claim_winnings_tx claimedState specArgsBettor).1 = claimedState :=
  C6_failure_zero_mutation.1 claimedState specArgsBettor (by decide)

/-- C7: across any sequence of claim attempts `total_claimed` and
`total_paid_out` never decrease and `total_paid_out` stays within
`MAX_ROUND_PAYOUTS`; a winning claim that would push `total_paid_out` past
the cap fails with `RoundPayoutLimitReached`. -/
theorem C7_totals_monotone_and_capped :
    (∀ (s : ClaimState) (L : List ClaimArgs),
       s.round.total_paid_out ≤ MAX_ROUND_PAYOUTS →
       s.round.total_claimed ≤ (applyClaims s L).round.total_claimed ∧
       s.round.total_paid_out ≤ (applyClaims s L).round.total_paid_out ∧
       (applyClaims s L).round.total_paid_out ≤ MAX_ROUND_PAYOUTS) ∧
    (∀ (s : ClaimState) (a : ClaimArgs) (base P : Nat),
       s.round.settled = true →
       s.bet.claimed = false →
       calculate_bet_payout s.bet s.round = .ok (true, base, P) →
       ¬(a.current_time ≤ s.round.round_end_time + 86400 ∧ a.claimer ≠ s.bet.bettor) →
       a.min_payout ≤ P →
       0 < P →
       s.round.total_paid_out + P < U64_MOD →
       MAX_ROUND_PAYOUTS < s.round.total_paid_out + P →
       claim_winnings s a = .err .RoundPayoutLimitReached) := by
  constructor
  · have step : ∀ (s : ClaimState) (a : ClaimArgs),
        s.round.total_paid_out ≤ MAX_ROUND_PAYOUTS →
        s.round.total_claimed ≤ (claim_winnings_tx s a).1.round.total_claimed ∧
        s.round.total_paid_out ≤ (claim_winnings_tx s a).1.round.total_paid_out ∧
        (claim_winnings_tx s a).1.round.total_paid_out ≤ MAX_ROUND_PAYOUTS := by
      intro s a hcap
      cases hres : claim_winnings s a
      case ok s2 =>
        obtain ⟨_, hd⟩ := claim_winnings_ok_cases s a s2 hres
        simp only [claim_winnings_tx, hres]
        rcases hd with ⟨h1, h2⟩ | ⟨P, hP, h1, h2, h3⟩ <;> refine ⟨?_, ?_, ?_⟩ <;> omega
      case err e =>
        simp only [claim_winnings_tx, hres]
        exact ⟨le_refl _, le_refl _, hcap⟩
      case trap =>
        simp only [claim_winnings_tx, hres]
        exact ⟨le_refl _, le_refl _, hcap⟩
    intro s L
    induction L generalizing s with
    | nil => intro hcap; exact ⟨le_refl _, le_refl _, hcap⟩
    | cons a rest ih =>
      intro hcap
      obtain ⟨h1, h2, h3⟩ := step s a hcap
      obtain ⟨h4, h5, h6⟩ := ih (claim_winnings_tx s a).1 h3
      rw [applyClaims]
      exact ⟨le_trans h1 h4, le_trans h2 h5, h6⟩
  · intro s a base P hset hncl hcalc hwindow hmin hP hfits hover
    obtain ⟨bet1, hcw, hcalc1, _⟩ := claim_winnings_as_core s a hset hncl
    rw [hcw]
    exact claim_winnings_core_cap_err s a bet1 base P (hcalc1.trans hcalc) hwindow
      hmin hP hfits hover

/-- Witness for C7: monotone totals along the spec claim, and a near-cap
round on which the same winning claim fails with `RoundPayoutLimitReached`. -/
theorem C7_totals_monotone_and_capped_witness :
    (specState.round.total_claimed ≤
       (applyClaims specState [specArgsBettor]).round.total_claimed ∧
     specState.round.total_paid_out ≤
       (applyClaims specState [specArgsBettor]).round.total_paid_out ∧
     (applyClaims specState [specArgsBettor]).round.total_paid_out ≤ MAX_ROUND_PAYOUTS) ∧
    claim_winnings nearCapState specArgsBettor = .err .RoundPayoutLimitReached :=
  ⟨C7_totals_monotone_and_capped.1 specState [specArgsBettor] (by decide),
   C7_totals_monotone_and_capped.2 nearCapState specArgsBettor 350 420 (by rfl) (by rfl)
     (by rfl) (by decide) (by decide) (by decide) (by decide) (by decide)⟩

lemma finalize_eval_pos (s : FinalizeState) (a : FinalizeArgs)
    (hset : s.round.settled = true)
    (hnd : s.round.revenue_distributed = false)
    (hauth : a.authority = s.pool.authority)
    (hle : s.round.total_reserved_for_winners ≤ s.round.total_claimed)
    (hrem : 0 < s.pool_balance)
    (hbps : s.pool.season_pool_share_bps < U64_MOD)
    (hsrp : s.pool.season_reward_pool + s.pool_balance < U64_MOD) :
    finalize_round_revenue s a =
      .ok { pool := { s.pool with
                      season_reward_pool := s.pool.season_reward_pool + seasonShare s },
            round := { s.round with
                       protocol_revenue_share := s.pool_balance - seasonShare s,
                       season_revenue_share := seasonShare s,
                       revenue_distributed := true },
            pool_balance := s.pool_balance } := by
  have hd : saturating_add_u64 s.round.total_user_deposits s.round.protocol_fee_collected
      < U64_MOD := by
    rw [saturating_add_u64]
    have : 0 < U64_MOD := by norm_num [U64_MOD]
    omega
  have hmul : checked_mul_u128
      (saturating_add_u64 s.round.total_user_deposits s.round.protocol_fee_collected)
      s.pool.season_pool_share_bps =
      some (saturating_add_u64 s.round.total_user_deposits s.round.protocol_fee_collected *
            s.pool.season_pool_share_bps) := by
    rw [checked_mul_u128, if_pos (mul_lt_u128 hd hbps)]
  have hdiv : checked_div_u128
      (saturating_add_u64 s.round.total_user_deposits s.round.protocol_fee_collected *
       s.pool.season_pool_share_bps) BPS_DENOMINATOR =
      some (saturating_add_u64 s.round.total_user_deposits s.round.protocol_fee_collected *
            s.pool.season_pool_share_bps / BPS_DENOMINATOR) := by
    rw [checked_div_u128, if_neg (by norm_num [BPS_DENOMINATOR])]
  rw [finalize_round_revenue, if_neg (by simp [hset]), if_neg (by simp [hnd]),
    if_neg (by simp [hauth]), if_neg (by omega), if_pos hrem]
  simp only [hmul, hdiv]
  have hSH : (if s.pool_balance < cast_u64
        (saturating_add_u64 s.round.total_user_deposits s.round.protocol_fee_collected *
         s.pool.season_pool_share_bps / BPS_DENOMINATOR)
      then s.pool_balance
      else cast_u64
        (saturating_add_u64 s.round.total_user_deposits s.round.protocol_fee_collected *
         s.pool.season_pool_share_bps / BPS_DENOMINATOR)) = seasonShare s := by
    rw [seasonShare, Nat.min_def]
    split_ifs <;> omega
  rw [hSH]
  have hshle : seasonShare s ≤ s.pool_balance := min_le_right _ _
  by_cases h0 : 0 < seasonShare s
  · rw [if_pos h0, u64add, if_pos (by omega)]
  · rw [if_neg h0]
    simp only []
    have hsh0 : seasonShare s = 0 := by omega
    congr 1
    simp only [FinalizeState.mk.injEq, BettingPool.mk.injEq]
    and_intros <;> first | rfl | trivial | omega

lemma finalize_eval_zero (s : FinalizeState) (a : FinalizeArgs)
    (hset : s.round.settled = true)
    (hnd : s.round.revenue_distributed = false)
    (hauth : a.authority = s.pool.authority)
    (hle : s.round.total_reserved_for_winners ≤ s.round.total_claimed)
    (hrem : s.pool_balance = 0) :
    finalize_round_revenue s a =
      .ok { pool := s.pool,
            round := { s.round with
                       protocol_revenue_share := 0,
                       season_revenue_share := 0,
                       revenue_distributed := true },
            pool_balance := s.pool_balance } := by
  rw [finalize_round_revenue, if_neg (by simp [hset]), if_neg (by simp [hnd]),
    if_neg (by simp [hauth]), if_neg (by omega), if_neg (by omega)]

/-- C8: with the round settled and revenue not yet distributed,
`finalize_round_revenue` fails with `RevenueDistributedBeforeClaims`
whenever `total_claimed < total_reserved_for_winners`; otherwise it
succeeds, records `revenue_distributed = true`, and every later call on the
finalized round fails with `RevenueAlreadyDistributed`. -/
theorem C8_finalize_gating :
    ∀ (s : FinalizeState) (a : FinalizeArgs),
    s.round.settled = true →
    s.round.revenue_distributed = false →
    a.authority = s.pool.authority →
    s.pool.season_pool_share_bps < U64_MOD →
    s.pool.season_reward_pool + s.pool_balance < U64_MOD →
    ((s.round.total_claimed < s.round.total_reserved_for_winners →
        finalize_round_revenue s a = .err .RevenueDistributedBeforeClaims) ∧
     (s.round.total_reserved_for_winners ≤ s.round.total_claimed →
        ∃ s2, finalize_round_revenue s a = .ok s2 ∧
          s2.round.revenue_distributed = true ∧
          (∀ a2, finalize_round_revenue s2 a2 = .err .RevenueAlreadyDistributed))) := by
  intro s a hset hnd hauth hbps hsrp
  constructor
  · intro hlt
    rw [finalize_round_revenue, if_neg (by simp [hset]), if_neg (by simp [hnd]),
      if_neg (by simp [hauth]), if_pos hlt]
  · intro hle
    by_cases hrem : 0 < s.pool_balance
    · have hok := finalize_eval_pos s a hset hnd hauth hle hrem hbps hsrp
      refine ⟨_, hok, rfl, ?_⟩
      intro a2
      rw [finalize_round_revenue, if_neg (by simp [hset]), if_pos rfl]
    · have hrem0 : s.pool_balance = 0 := by omega
      have hok := finalize_eval_zero s a hset hnd hauth hle hrem0
      refine ⟨_, hok, rfl, ?_⟩
      intro a2
      rw [finalize_round_revenue, if_neg (by simp [hset]), if_pos rfl]

/-- Witness for C8 on the concrete finalize state, plus the failing
under-claimed variant. -/
theorem C8_finalize_gating_witness :
    ∃ s2, finalize_round_revenue finState { authority := 3 } = .ok s2 ∧
      s2.round.revenue_distributed = true ∧
      (∀ a2, finalize_round_revenue s2 a2 = .err .RevenueAlreadyDistributed) :=
  (C8_finalize_gating finState { authority := 3 } (by rfl) (by rfl) (by rfl)
      (by decide) (by decide)).2 (by decide)

/-- C9: a successful finalize with residual liquidity `R > 0` records
`season_revenue_share = min(floor(D * B / 10000), R)` for
`D = total_user_deposits + protocol_fee_collected` and
`B = season_pool_share_bps`, records `protocol_revenue_share = R` minus the
season share, and accumulates the season share into the pool's
`season_reward_pool`; with `R = 0` both recorded shares are zero. -/
theorem C9_revenue_split :
    ∀ (s : FinalizeState) (a : FinalizeArgs),
    s.round.settled = true →
    s.round.revenue_distributed = false →
    a.authority = s.pool.authority →
    s.round.total_reserved_for_winners ≤ s.round.total_claimed →
    s.round.total_user_deposits + s.round.protocol_fee_collected < U64_MOD →
    (s.round.total_user_deposits + s.round.protocol_fee_collected) *
      s.pool.season_pool_share_bps / BPS_DENOMINATOR < U64_MOD →
    s.pool.season_pool_share_bps < U64_MOD →
    s.pool.season_reward_pool + s.pool_balance < U64_MOD →
    ∃ s2, finalize_round_revenue s a = .ok s2 ∧
      (0 < s.pool_balance →
        s2.round.season_revenue_share =
          min ((s.round.total_user_deposits + s.round.protocol_fee_collected) *
               s.pool.season_pool_share_bps / BPS_DENOMINATOR) s.pool_balance ∧
        s2.round.protocol_revenue_share = s.pool_balance - s2.round.season_revenue_share ∧
        s2.pool.season_reward_pool =
          s.pool.season_reward_pool + s2.round.season_revenue_share) ∧
      (s.pool_balance = 0 →
        s2.round.season_revenue_share = 0 ∧ s2.round.protocol_revenue_share = 0) := by
  intro s a hset hnd hauth hle hD hq hbps hsrp
  have hsat : saturating_add_u64 s.round.total_user_deposits s.round.protocol_fee_collected =
      s.round.total_user_deposits + s.round.protocol_fee_collected := by
    rw [saturating_add_u64]
    omega
  have hSH : seasonShare s =
      min ((s.round.total_user_deposits + s.round.protocol_fee_collected) *
           s.pool.season_pool_share_bps / BPS_DENOMINATOR) s.pool_balance := by
    rw [seasonShare, hsat, cast_u64, Nat.mod_eq_of_lt hq]
  by_cases hrem : 0 < s.pool_balance
  · have hok := finalize_eval_pos s a hset hnd hauth hle hrem hbps hsrp
    refine ⟨_, hok, ?_, ?_⟩
    · intro _
      exact ⟨hSH, rfl, rfl⟩
    · intro h0
      omega
  · have hrem0 : s.pool_balance = 0 := by omega
    have hok := finalize_eval_zero s a hset hnd hauth hle hrem0
    refine ⟨_, hok, ?_, ?_⟩
    · intro h0
      omega
    · intro _
      exact ⟨rfl, rfl⟩

/-- Witness for C9: deposits-plus-fees 1100 at 200 bps over residual 700
gives season share 22, protocol share 678, season pool 50 + 22. -/
theorem C9_revenue_split_witness :
    ∃ s2, finalize_round_revenue finState { authority := 3 } = .ok s2 ∧
      (0 < finState.pool_balance →
        s2.round.season_revenue_share =
          min ((finState.round.total_user_deposits + finState.round.protocol_fee_collected) *
               finState.pool.season_pool_share_bps / BPS_DENOMINATOR) finState.pool_balance ∧
        s2.round.protocol_revenue_share =
          finState.pool_balance - s2.round.season_revenue_share ∧
        s2.pool.season_reward_pool =
          finState.pool.season_reward_pool + s2.round.season_revenue_share) ∧
      (finState.pool_balance = 0 →
        s2.round.season_revenue_share = 0 ∧ s2.round.protocol_revenue_share = 0) :=
  C9_revenue_split finState { authority := 3 } (by rfl) (by rfl) (by rfl) (by decide)
    (by decide) (by decide) (by decide) (by decide)

/-- C10 counterexample: a bet containing an out-of-range `match_index` whose
earlier leg is wrong returns `(false, 0, 0)` — no panic, because the
wrong-leg break precedes the indexing of the later leg. -/
theorem C10_masked_oob_counterexample :
    maskedOobBet.predictions =
      [ { match_index := 0, predicted_outcome := 2, amount_in_pool := 100 },
        { match_index := 5, predicted_outcome := 1, amount_in_pool := 100 } ] ∧
    specRound.match_results.length ≤ 5 ∧
    specRound.locked_odds.length ≤ 5 ∧
    calculate_bet_payout maskedOobBet specRound = .ok (false, 0, 0) := by
  refine ⟨by rfl, by decide, by decide, by rfl⟩

/-- C10 amended: `calculate_bet_payout` panics from unchecked indexing — and
so does any claim on the bet that reaches the calculation — exactly when the
out-of-range leg is reached, i.e. all earlier legs are in range, correct and
locked. -/
theorem C10_amended_oob_panics :
    ∀ (bet : Bet) (round : RoundAccounting) (pre : List Prediction) (p : Prediction)
      (rest : List Prediction),
    bet.predictions = pre ++ p :: rest →
    (∀ q ∈ pre, LegReady round.match_results round.locked_odds q ∧
      LegCorrect round.match_results q) →
    basePayout round.locked_odds pre < U64_MOD →
    (round.match_results.length ≤ p.match_index ∨
      round.locked_odds.length ≤ p.match_index) →
    calculate_bet_payout bet round = .trap ∧
    (∀ (s : ClaimState) (a : ClaimArgs),
       s.bet = bet → s.round = round →
       round.settled = true → bet.claimed = false →
       ¬(a.current_time ≤ round.round_end_time + 86400 ∧ a.claimer ≠ bet.bettor) →
       claim_winnings s a = .trap) := by
  intro bet round pre p rest h1 h2 h3 h4
  have hcalctrap := calc_oob bet round pre p rest h1 h2 h3 h4
  refine ⟨hcalctrap, ?_⟩
  intro s a hsb hsr hset hncl hwindow
  obtain ⟨bet1, hcw, hcalc1, _⟩ :=
    claim_winnings_as_core s a (by rw [hsr]; exact hset) (by rw [hsb]; exact hncl)
  have htrap : calculate_bet_payout bet1 s.round = .trap := by
    rw [hcalc1, hsb, hsr, hcalctrap]
  rw [hcw, claim_winnings_core, if_neg (by rw [hsb, hsr]; exact hwindow), htrap]

/-- Witness for the amended C10: a one-leg bet with match index 5 against a
two-match round panics, both in the calculation and through a claim. -/
theorem C10_amended_oob_panics_witness :
    calculate_bet_payout oobBet specRound = .trap ∧
    claim_winnings oobState specArgsBettor = .trap :=
  have h := C10_amended_oob_panics oobBet specRound []
    { match_index := 5, predicted_outcome := 1, amount_in_pool := 100 } []
    (by rfl) (by decide) (by decide) (by decide)
  ⟨h.1, h.2 oobState specArgsBettor (by rfl) (by rfl) (by rfl) (by rfl) (by decide)⟩
